import Mathlib

/-!
Shallow embedding of `src/main.rs` of `find-non-standard-tx`.

The program replays historical blocks against a test node: for every
non-coinbase transaction it calls `test_mempool_accept`, buffers a
`ResultRow` for rejections (except the already-in-mempool case), submits
accepted transactions with `send_raw_transaction` (retrying on transport
errors), then calls `submit_block` and only writes the buffered rows to the
CSV sink when the block was new to the node.

The node is modelled as a script: each RPC call site consumes the
pre-recorded response(s) for that call, and retry loops consume one
response per attempt.  Panics (`unwrap`, `panic!`) are modelled as explicit
`panicked` outcomes; a retry loop that runs out of scripted responses while
still seeing transport errors is `hung` (the real loop would still be
retrying).  Every RPC request the engine issues is additionally recorded in
a call trace so that theorems can speak about the arguments passed.
-/

namespace FindNonStandardTx

/-- Embeds `const DUPLICATE_BLOCK_ERROR: &str = "\"duplicate\"";` (src/main.rs:9). -/
def DUPLICATE_BLOCK_ERROR : String := "\"duplicate\""

/-- Embeds `const TX_ALREADY_IN_MEMPOOL_REJECTION_REASON: &str = "txn-already-in-mempool";`
(src/main.rs:10). -/
def TX_ALREADY_IN_MEMPOOL_REJECTION_REASON : String := "txn-already-in-mempool"

/-- Embeds `const RPC_RETRY_TIME: Duration = Duration::from_secs(5);` (src/main.rs:11),
the fixed delay slept between retries, in seconds. -/
def RPC_RETRY_TIME_SECS : Nat := 5

/-- Embeds `bitcoincore_rpc::bitcoin::Amount::MAX_MONEY`: 21_000_000 BTC in satoshi,
the network-imposed maximum amount.  Passed at src/main.rs:123-124 as both the
max-fee and max-burn argument of `send_raw_transaction`. -/
def Amount.MAX_MONEY : Nat := 2100000000000000

/-- The attributes of a `bitcoin::Transaction` that `main` consumes:
`tx.txid()`, `tx.is_coinbase()`, `tx.vsize()`, `tx.input.len()`,
`tx.output.len()` (src/main.rs:88-118). -/
structure Transaction where
  txid : String
  is_coinbase : Bool
  vsize : Nat
  input_len : Nat
  output_len : Nat
deriving DecidableEq, Repr

/-- The fields of `bitcoincore_rpc::json::TestMempoolAcceptResult` that `main`
reads: `allowed` and `reject_reason` (src/main.rs:96-100). -/
structure TestMempoolAcceptResult where
  allowed : Bool
  reject_reason : Option String
deriving DecidableEq, Repr

/-- The `bitcoincore_rpc::Error` shapes distinguished by the error matches at
src/main.rs:127-148 and src/main.rs:176-206:
`Error::ReturnedError(s)`, `Error::JsonRpc(jsonrpc::Error::Transport(e))`,
any other `Error::JsonRpc(e)`, and any other variant. -/
inductive RpcError where
  | returnedError (s : String)
  | jsonRpcTransport (msg : String)
  | jsonRpcOther (msg : String)
  | otherError (msg : String)
deriving DecidableEq, Repr

/-- Whether the error is `Error::JsonRpc(jsonrpc::Error::Transport(_))`, the
only error shape the two retry loops retry on. -/
def RpcError.isTransport : RpcError → Bool
  | .jsonRpcTransport _ => true
  | _ => false

/-- A request issued to the test node, with the arguments appearing at the
call site: `test_mempool_accept(&[tx])` (src/main.rs:93) passes only the
transaction slice — the method takes no fee-ceiling argument;
`send_raw_transaction(tx, Some(Amount::MAX_MONEY), Some(Amount::MAX_MONEY))`
(src/main.rs:121-125) passes a max-fee and a max-burn amount;
`submit_block(&block)` (src/main.rs:174) passes the block. -/
inductive RpcCall where
  | testMempoolAccept (txids : List String)
  | sendRawTransaction (txid : String) (maxfee : Option Nat) (maxburn : Option Nat)
  | submitBlock (height : Nat)
deriving DecidableEq, Repr

/-- The fee-ceiling argument carried by a request, when the call site has one:
only `send_raw_transaction` takes a max-fee argument. -/
def RpcCall.feeCeiling : RpcCall → Option Nat
  | .sendRawTransaction _ maxfee _ => maxfee
  | .testMempoolAccept _ => none
  | .submitBlock _ => none

/-- The burn-ceiling argument carried by a request, when the call site has
one: only `send_raw_transaction` takes a max-burn argument. -/
def RpcCall.burnCeiling : RpcCall → Option Nat
  | .sendRawTransaction _ _ maxburn => maxburn
  | .testMempoolAccept _ => none
  | .submitBlock _ => none

/-- Embeds `struct ResultRow` (src/main.rs:36-45), the row serialized to the CSV
sink; its fields in declaration order are height, miner, reject_reason,
txid, vsize, inputs, outputs — there is no fee field. -/
structure ResultRow where
  height : Nat
  miner : String
  reject_reason : String
  txid : String
  vsize : Nat
  inputs : Nat
  outputs : Nat
deriving DecidableEq, Repr

/-- The `ResultRow` literal built at src/main.rs:110-118. -/
def mkResultRow (current_height : Nat) (pool_name : String) (reject_reason : String)
    (tx : Transaction) : ResultRow :=
  { height := current_height
    miner := pool_name
    txid := tx.txid
    reject_reason := reject_reason
    vsize := tx.vsize
    inputs := tx.input_len
    outputs := tx.output_len }

/-- Outcome of the `send_raw_transaction` retry loop (src/main.rs:120-150). -/
inductive SendLoopResult where
  | completed
  | panicked (msg : String)
  | hung
deriving DecidableEq, Repr

/-- The retry loop around `test_node.send_raw_transaction(tx,
Some(Amount::MAX_MONEY), Some(Amount::MAX_MONEY))` (src/main.rs:120-150):
`Ok(_)` breaks the loop; `Error::JsonRpc(jsonrpc::Error::Transport(_))`
sleeps `RPC_RETRY_TIME` and retries; every other error panics.  One scripted
response is consumed per attempt, and each attempt is recorded in the call
trace with the arguments of the call site. -/
def sendRawTxLoop (txid : String) :
    List (Except RpcError String) → SendLoopResult × List RpcCall
  | [] => (.hung, [])
  | r :: rest =>
    let call := RpcCall.sendRawTransaction txid (some Amount.MAX_MONEY) (some Amount.MAX_MONEY)
    match r with
    | .ok _ => (.completed, [call])
    | .error e =>
      match e with
      | .jsonRpcTransport _ =>
        let next := sendRawTxLoop txid rest
        (next.1, call :: next.2)
      | .returnedError m => (.panicked m, [call])
      | .jsonRpcOther m => (.panicked m, [call])
      | .otherError m => (.panicked m, [call])

/-- Result of `fn submit_block` (src/main.rs:172-210): `newBlock` models the
function returning `true`, `duplicateBlock` models it returning `false`. -/
inductive SubmitOutcome where
  | newBlock
  | duplicateBlock
  | panicked (msg : String)
  | hung
deriving DecidableEq, Repr

/-- Embeds `fn submit_block(node, block, current_height)` (src/main.rs:172-210):
`Ok(_)` returns true; `Error::ReturnedError(s)` returns false when
`s == DUPLICATE_BLOCK_ERROR` and panics otherwise;
`Error::JsonRpc(jsonrpc::Error::Transport(_))` sleeps and retries; every
other error panics.  One scripted response per attempt; each attempt is
recorded in the call trace. -/
def submit_block (current_height : Nat) :
    List (Except RpcError Unit) → SubmitOutcome × List RpcCall
  | [] => (.hung, [])
  | r :: rest =>
    let call := RpcCall.submitBlock current_height
    match r with
    | .ok _ => (.newBlock, [call])
    | .error e =>
      match e with
      | .returnedError s =>
        if s = DUPLICATE_BLOCK_ERROR then (.duplicateBlock, [call])
        else (.panicked s, [call])
      | .jsonRpcTransport _ =>
        let next := submit_block current_height rest
        (next.1, call :: next.2)
      | .jsonRpcOther m => (.panicked m, [call])
      | .otherError m => (.panicked m, [call])

/-- Scripted node behaviour for one transaction of a block: the transaction
itself, the response to its `test_mempool_accept` call (`Err` models the
RPC call failing, in which case the `.unwrap()` at src/main.rs:93 panics;
`Ok` carries the result vector of which `main` takes `.first().unwrap()`),
and the per-attempt responses to `send_raw_transaction` should the
transaction be accepted. -/
structure TxScript where
  tx : Transaction
  acceptResponse : Except RpcError (List TestMempoolAcceptResult)
  sendResponses : List (Except RpcError String)
deriving Repr

/-- Outcome of processing one transaction of the per-block loop
(src/main.rs:88-152). -/
inductive TxOutcome where
  | skippedCoinbase
  | skippedAlreadyInMempool
  | buffered (row : ResultRow)
  | submitted
  | panicked (msg : String)
  | hung
deriving DecidableEq, Repr

/-- The body of `for tx in block.txdata.iter()` (src/main.rs:88-152):
skip coinbase; `test_mempool_accept` (unwrap the response, take the first
result); if not allowed, unwrap the reject reason, skip the
already-in-mempool reason, otherwise buffer a `ResultRow`; if allowed, run
the `send_raw_transaction` retry loop. -/
def processTx (current_height : Nat) (pool_name : String) (s : TxScript) :
    TxOutcome × List RpcCall :=
  if s.tx.is_coinbase then (.skippedCoinbase, [])
  else
    let call := RpcCall.testMempoolAccept [s.tx.txid]
    match s.acceptResponse with
    | .error _ => (.panicked "test_mempool_accept failed", [call])
    | .ok results =>
      match results.head? with
      | none => (.panicked "no first mempool accept result", [call])
      | some result =>
        if result.allowed then
          let send := sendRawTxLoop s.tx.txid s.sendResponses
          match send.1 with
          | .completed => (.submitted, call :: send.2)
          | .panicked m => (.panicked m, call :: send.2)
          | .hung => (.hung, call :: send.2)
        else
          match result.reject_reason with
          | none => (.panicked "no reject_reason", [call])
          | some reject_reason =>
            if reject_reason = TX_ALREADY_IN_MEMPOOL_REJECTION_REASON then
              (.skippedAlreadyInMempool, [call])
            else
              (.buffered (mkResultRow current_height pool_name reject_reason s.tx), [call])

/-- Outcome of the whole per-block transaction loop: the accumulated
`csv_rows` buffer, or the panic/hang that aborted it. -/
inductive TxsResult where
  | ok (csv_rows : List ResultRow)
  | panicked (msg : String)
  | hung
deriving DecidableEq, Repr

/-- The per-block transaction loop (src/main.rs:87-152): transactions are
processed in block order, rejected ones push onto `csv_rows`; a panic or a
hang aborts the loop (and hence the program) at that transaction. -/
def processTxs (current_height : Nat) (pool_name : String) :
    List TxScript → TxsResult × List RpcCall
  | [] => (.ok [], [])
  | s :: rest =>
    let step := processTx current_height pool_name s
    match step.1 with
    | .panicked m => (.panicked m, step.2)
    | .hung => (.hung, step.2)
    | .buffered row =>
      let next := processTxs current_height pool_name rest
      match next.1 with
      | .ok csv_rows => (.ok (row :: csv_rows), step.2 ++ next.2)
      | other => (other, step.2 ++ next.2)
    | _ =>
      let next := processTxs current_height pool_name rest
      (next.1, step.2 ++ next.2)

/-- Scripted node behaviour for one block: its transactions,
`block.identify_pool(...)` mapped to `.pool.name` (None models the pool
being unidentified, src/main.rs:82-85), and the per-attempt responses to
`submit_block`. -/
structure BlockScript where
  txs : List TxScript
  identifyPool : Option String
  submitResponses : List (Except RpcError Unit)
deriving Repr

/-- Embeds `let pool_name = match block.identify_pool(...) { Some(result) =>
result.pool.name, None => "Unknown".to_string() }` (src/main.rs:82-85). -/
def poolName (b : BlockScript) : String :=
  match b.identifyPool with
  | some name => name
  | none => "Unknown"

/-- Outcome of one iteration of the main `while` loop: the rows written to
the CSV sink for this block (empty when the block was a duplicate), or the
panic/hang that aborted the run. -/
inductive BlockResult where
  | advanced (rowsWritten : List ResultRow)
  | panicked (msg : String)
  | hung
deriving DecidableEq, Repr

/-- One iteration of the main loop body (src/main.rs:79-166): run the
transaction loop building `csv_rows`, call `submit_block`, and serialize the
buffered rows to the sink only when `block_was_unknown` is true; on a
duplicate block the buffer is discarded (`csv_rows.clear()`). -/
def processBlock (current_height : Nat) (b : BlockScript) :
    BlockResult × List RpcCall :=
  let pool_name := poolName b
  let txsStep := processTxs current_height pool_name b.txs
  match txsStep.1 with
  | .panicked m => (.panicked m, txsStep.2)
  | .hung => (.hung, txsStep.2)
  | .ok csv_rows =>
    let sub := submit_block current_height b.submitResponses
    match sub.1 with
    | .newBlock => (.advanced csv_rows, txsStep.2 ++ sub.2)
    | .duplicateBlock => (.advanced [], txsStep.2 ++ sub.2)
    | .panicked m => (.panicked m, txsStep.2 ++ sub.2)
    | .hung => (.hung, txsStep.2 ++ sub.2)

/-- The external effects accumulated by a run: the rows serialized to the
CSV sink, in the order written, and the trace of RPC requests issued. -/
structure RunState where
  sink : List ResultRow
  calls : List RpcCall
deriving DecidableEq, Repr

/-- How a run ended.  `outOfFuel` is an artefact of the fuel-bounded model:
the scripted run was cut off before the loop condition failed. -/
inductive LoopResult where
  | finished (st : RunState) (finalHeight : Nat)
  | panicked (msg : String) (st : RunState)
  | hung (st : RunState)
  | outOfFuel (st : RunState)
deriving DecidableEq, Repr

/-- The run state at the end, whichever way the run ended. -/
def LoopResult.state : LoopResult → RunState
  | .finished st _ => st
  | .panicked _ st => st
  | .hung st => st
  | .outOfFuel st => st

/-- The main `while current_height <= data_node.get_block_count().unwrap()`
loop (src/main.rs:78-167).  `dataHeight i` is the value returned by the
data node's `get_block_count` at the i-th evaluation of the loop condition
(the condition re-reads it every iteration); `blocks h` is the scripted
block at height `h`; `fuel` bounds the number of iterations the model
unfolds.  Each processed block appends its written rows to the sink and
`current_height` is incremented by one. -/
def replayLoop (dataHeight : Nat → Nat) (blocks : Nat → BlockScript) :
    Nat → Nat → Nat → RunState → LoopResult
  | 0, _, _, st => .outOfFuel st
  | fuel + 1, i, current_height, st =>
    if current_height ≤ dataHeight i then
      let step := processBlock current_height (blocks current_height)
      let st1 : RunState := { st with calls := st.calls ++ step.2 }
      match step.1 with
      | .advanced rows =>
        replayLoop dataHeight blocks fuel (i + 1) (current_height + 1)
          { st1 with sink := st1.sink ++ rows }
      | .panicked m => .panicked m st1
      | .hung => .hung st1
    else
      .finished st current_height

/-- Embeds `fn main` after setup (src/main.rs:61-167): `start_height` is the test
node's `get_block_count() + 1`, and the loop starts there with an empty
sink and empty call trace. -/
def run (test_node_height : Nat) (dataHeight : Nat → Nat) (blocks : Nat → BlockScript)
    (fuel : Nat) : LoopResult :=
  replayLoop dataHeight blocks fuel 0 (test_node_height + 1) { sink := [], calls := [] }

/-- What must be true of a transaction for its row to be in the sink: some
height has a scripted transaction that is not coinbase, whose acceptance
test answered `allowed == false` with the row's reject reason, that reason
is not the already-in-mempool one, and that height's `submit_block`
reported the block as new. -/
def sinkRowOk (blocks : Nat → BlockScript) (row : ResultRow) : Prop :=
  ∃ h s, s ∈ (blocks h).txs ∧
    s.tx.is_coinbase = false ∧
    (∃ results result, s.acceptResponse = Except.ok results ∧
      results.head? = some result ∧
      result.allowed = false ∧
      result.reject_reason = some row.reject_reason) ∧
    row.reject_reason ≠ TX_ALREADY_IN_MEMPOOL_REJECTION_REASON ∧
    (submit_block h (blocks h).submitResponses).1 = SubmitOutcome.newBlock

/-- Spec-side definition for the `submitBlock` contract, following the
spec's words: the node's verdict is the first response that is not a
transport failure (transport failures are retried, so they never decide
the outcome). -/
def firstVerdict : List (Except RpcError Unit) → Option (Except RpcError Unit)
  | [] => none
  | (.error (.jsonRpcTransport _)) :: rest => firstVerdict rest
  | r :: _ => some r

/-- A CSV file on disk: its records in order, one per line. -/
structure CsvFile where
  records : List (List String)
deriving DecidableEq, Repr

/-- The header record the csv crate derives from `ResultRow`'s field names
(src/main.rs:36-45), in declaration order; note there is no fee field. -/
def resultRowHeader : List String :=
  ["height", "miner", "reject_reason", "txid", "vsize", "inputs", "outputs"]

/-- The record `wtr.serialize(&row)` (src/main.rs:157) appends for one
`ResultRow`: its field values in declaration order. -/
def resultRowRecord (r : ResultRow) : List String :=
  [toString r.height, r.miner, r.reject_reason, r.txid,
   toString r.vsize, toString r.inputs, toString r.outputs]

/-- The state of the `csv::Writer` used as the result sink: the file it
writes and whether the automatic header record has been emitted yet. -/
structure CsvWriter where
  headerWritten : Bool
  file : CsvFile
deriving DecidableEq, Repr

/-- Embeds `Writer::from_path(output_file)` (src/main.rs:72).  In the csv
crate, `Writer::from_path` opens the path with `File::create`, which
truncates an existing file; so whatever `prev` held on disk, the writer
starts over an empty file, with the header not yet written. -/
def Writer.from_path (prev : CsvFile) : CsvWriter :=
  { headerWritten := false, file := { records := [] } }

/-- Embeds `wtr.serialize(&row)` (src/main.rs:157).  With the csv crate's
default `has_headers == true`, the first call writes the header record
derived from the struct's field names followed by the row's record; every
later call appends only the row's record. -/
def CsvWriter.serialize (w : CsvWriter) (r : ResultRow) : CsvWriter :=
  if w.headerWritten then
    { w with file := { records := w.file.records ++ [resultRowRecord r] } }
  else
    { headerWritten := true
      file := { records := w.file.records ++ [resultRowHeader, resultRowRecord r] } }

/-- Serializing a list of rows in order (the `for row in csv_rows.iter()`
loop at src/main.rs:156-162, over the whole run). -/
def CsvWriter.serializeAll (w : CsvWriter) : List ResultRow → CsvWriter
  | [] => w
  | r :: rest => (w.serialize r).serializeAll rest

/-- An example coinbase transaction script (the acceptance test is never
reached for it). -/
def exCoinbase : TxScript :=
  { tx := { txid := "cb", is_coinbase := true, vsize := 100, input_len := 1, output_len := 2 }
    acceptResponse := .ok []
    sendResponses := [] }

/-- Example transaction: rejected with a reason worth recording. -/
def exTx1 : TxScript :=
  { tx := { txid := "t1", is_coinbase := false, vsize := 150, input_len := 1, output_len := 1 }
    acceptResponse := .ok [{ allowed := false, reject_reason := some "min relay fee not met" }]
    sendResponses := [] }

/-- Example transaction: accepted; the first send attempt hits a transport
error and the second succeeds. -/
def exTx2 : TxScript :=
  { tx := { txid := "t2", is_coinbase := false, vsize := 200, input_len := 2, output_len := 2 }
    acceptResponse := .ok [{ allowed := true, reject_reason := none }]
    sendResponses := [.error (.jsonRpcTransport "resource temporarily unavailable"), .ok "t2"] }

/-- Example transaction: rejected because it is already in the mempool. -/
def exTx3 : TxScript :=
  { tx := { txid := "t3", is_coinbase := false, vsize := 250, input_len := 1, output_len := 3 }
    acceptResponse := .ok [{ allowed := false,
                             reject_reason := some TX_ALREADY_IN_MEMPOOL_REJECTION_REASON }]
    sendResponses := [] }

/-- Example block at height 1: new to the test node. -/
def exBlock : BlockScript :=
  { txs := [exCoinbase, exTx1, exTx2, exTx3]
    identifyPool := some "ExamplePool"
    submitResponses := [.ok ()] }

/-- Example block at height 2: already known to the test node (duplicate);
its one rejected transaction's buffered row must be discarded. -/
def exDupBlock : BlockScript :=
  { txs := [{ tx := { txid := "t4", is_coinbase := false, vsize := 300,
                      input_len := 1, output_len := 1 }
              acceptResponse := .ok [{ allowed := false, reject_reason := some "dust" }]
              sendResponses := [] }]
    identifyPool := none
    submitResponses := [.error (.returnedError DUPLICATE_BLOCK_ERROR)] }

/-- Example block map: heights 1 and 2 as above, anything else empty. -/
def exBlocks : Nat → BlockScript := fun h =>
  if h = 1 then exBlock
  else if h = 2 then exDupBlock
  else { txs := [], identifyPool := none, submitResponses := [.ok ()] }

/-- The data node reports height 2 at every read. -/
def exDataHeight : Nat → Nat := fun _ => 2

/-- The one row the example run writes to the sink. -/
def exRow : ResultRow := mkResultRow 1 "ExamplePool" "min relay fee not met" exTx1.tx

/-- Example block whose acceptance-test RPC itself fails with an error that
is neither a duplicate rejection nor a transport failure. -/
def exPanicBlock : BlockScript :=
  { txs := [{ tx := { txid := "t5", is_coinbase := false, vsize := 1,
                      input_len := 1, output_len := 1 }
              acceptResponse := .error (.otherError "connection refused")
              sendResponses := [] }]
    identifyPool := none
    submitResponses := [.ok ()] }

/-- Every height maps to the failing example block. -/
def exPanicBlocks : Nat → BlockScript := fun _ => exPanicBlock

/-- Example transaction whose rejection carries no reject reason. -/
def exNoReasonTx : TxScript :=
  { tx := { txid := "t6", is_coinbase := false, vsize := 120, input_len := 1, output_len := 1 }
    acceptResponse := .ok [{ allowed := false, reject_reason := none }]
    sendResponses := [] }

/-- Every send-raw-transaction request in a trace carries
`Some(Amount::MAX_MONEY)` as both its max-fee and its max-burn argument. -/
def sendCeilingsAreMax (c : RpcCall) : Prop :=
  ∀ t f b, c = RpcCall.sendRawTransaction t f b →
    f = some Amount.MAX_MONEY ∧ b = some Amount.MAX_MONEY

theorem sendRawTxLoop_transport_cons (txid m : String)
    (rest : List (Except RpcError String)) :
    sendRawTxLoop txid (.error (.jsonRpcTransport m) :: rest)
      = ((sendRawTxLoop txid rest).1,
         RpcCall.sendRawTransaction txid (some Amount.MAX_MONEY) (some Amount.MAX_MONEY)
           :: (sendRawTxLoop txid rest).2) := by
  simp [sendRawTxLoop]

theorem submit_block_transport_cons (current_height : Nat) (m : String)
    (rest : List (Except RpcError Unit)) :
    submit_block current_height (.error (.jsonRpcTransport m) :: rest)
      = ((submit_block current_height rest).1,
         RpcCall.submitBlock current_height :: (submit_block current_height rest).2) := by
  simp [submit_block]

/-- C7: transport-level failures of `send_raw_transaction` and of
`submit_block` are retried with no maximum retry count: after any number n
of consecutive transport failures followed by a success, the operation
completes (the transaction is sent, the block is accepted as new) without
surfacing an error, having issued exactly n + 1 attempts.  The n = 1
instance is the fail-on-attempt-1, succeed-on-attempt-2 scenario. -/
theorem transport_failures_retried (txid m t : String) (current_height n : Nat) :
    (sendRawTxLoop txid
        (List.replicate n (.error (.jsonRpcTransport m)) ++ [.ok t])).1
      = SendLoopResult.completed
    ∧ (sendRawTxLoop txid
        (List.replicate n (.error (.jsonRpcTransport m)) ++ [.ok t])).2.length = n + 1
    ∧ (submit_block current_height
        (List.replicate n (.error (.jsonRpcTransport m)) ++ [.ok ()])).1
      = SubmitOutcome.newBlock
    ∧ (submit_block current_height
        (List.replicate n (.error (.jsonRpcTransport m)) ++ [.ok ()])).2.length = n + 1 := by
  induction n with
  | zero => simp [sendRawTxLoop, submit_block]
  | succ k ih =>
    simp only [List.replicate_succ, List.cons_append,
      sendRawTxLoop_transport_cons, submit_block_transport_cons, List.length_cons]
    exact ⟨ih.1, by rw [ih.2.1], ih.2.2.1, by rw [ih.2.2.2]⟩

/-- C8: an error that is neither the transport shape nor (at the
`submit_block` site) the duplicate-block rejection is never retried or
discarded: the send loop and the block-submit loop panic on it at once,
after exactly the one attempt that raised it, and a panicked block aborts
the replay loop immediately. -/
theorem unrecognized_errors_fail_fast :
    (∀ (e : RpcError) (txid : String) (rest : List (Except RpcError String)),
      e.isTransport = false →
      ∃ m, sendRawTxLoop txid (.error e :: rest)
        = (.panicked m,
           [RpcCall.sendRawTransaction txid (some Amount.MAX_MONEY) (some Amount.MAX_MONEY)]))
    ∧ (∀ (e : RpcError) (current_height : Nat) (rest : List (Except RpcError Unit)),
        e.isTransport = false →
        e ≠ .returnedError DUPLICATE_BLOCK_ERROR →
        ∃ m, submit_block current_height (.error e :: rest)
          = (.panicked m, [RpcCall.submitBlock current_height]))
    ∧ (∀ (dataHeight : Nat → Nat) (blocks : Nat → BlockScript)
          (fuel i current_height : Nat) (st : RunState) (m : String) (calls : List RpcCall),
        current_height ≤ dataHeight i →
        processBlock current_height (blocks current_height) = (.panicked m, calls) →
        replayLoop dataHeight blocks (fuel + 1) i current_height st
          = .panicked m { st with calls := st.calls ++ calls }) := by
  refine ⟨?_, ?_, ?_⟩
  · intro e txid rest htr
    cases e with
    | returnedError s => exact ⟨s, rfl⟩
    | jsonRpcTransport m => simp [RpcError.isTransport] at htr
    | jsonRpcOther m => exact ⟨m, rfl⟩
    | otherError m => exact ⟨m, rfl⟩
  · intro e current_height rest htr hnd
    cases e with
    | returnedError s =>
      refine ⟨s, ?_⟩
      have hs : s ≠ DUPLICATE_BLOCK_ERROR := fun h => hnd (by rw [h])
      simp [submit_block, hs]
    | jsonRpcTransport m => simp [RpcError.isTransport] at htr
    | jsonRpcOther m => exact ⟨m, rfl⟩
    | otherError m => exact ⟨m, rfl⟩
  · intro dataHeight blocks fuel i current_height st m calls hle hpb
    simp [replayLoop, hle, hpb]

/-- Witness for C8 at concrete inputs: a `ReturnedError("boom")` on the send
site, a `JsonRpc` non-transport error on the block-submit site, and a
failing acceptance RPC aborting the replay loop. -/
theorem unrecognized_errors_fail_fast_witness :
    (∃ m, sendRawTxLoop "tx" [.error (.returnedError "boom")]
      = (.panicked m,
         [RpcCall.sendRawTransaction "tx" (some Amount.MAX_MONEY) (some Amount.MAX_MONEY)]))
    ∧ (∃ m, submit_block 7 [.error (.jsonRpcOther "parse error")]
        = (.panicked m, [RpcCall.submitBlock 7]))
    ∧ replayLoop (fun _ => 5) exPanicBlocks 1 0 1 { sink := [], calls := [] }
        = .panicked "test_mempool_accept failed"
            { sink := [], calls := [RpcCall.testMempoolAccept ["t5"]] } :=
  ⟨unrecognized_errors_fail_fast.1 (.returnedError "boom") "tx" [] (by decide),
   unrecognized_errors_fail_fast.2.1 (.jsonRpcOther "parse error") 7 [] (by decide) (by decide),
   unrecognized_errors_fail_fast.2.2 (fun _ => 5) exPanicBlocks 0 0 1 { sink := [], calls := [] }
     "test_mempool_accept failed" [RpcCall.testMempoolAccept ["t5"]] (by decide) (by decide)⟩

/-- C2: the replay loop starts at the test node's height plus one with an
empty sink; at each iteration it reads the data node's height afresh
(`dataHeight i` at the i-th test of the loop condition): if the cursor
exceeds that height the run returns, otherwise the block at the cursor is
processed, its rows are appended to the sink, and the cursor advances by
exactly one. -/
theorem replay_cursor_semantics :
    (∀ (test_node_height : Nat) (dataHeight : Nat → Nat) (blocks : Nat → BlockScript)
        (fuel : Nat),
      run test_node_height dataHeight blocks fuel
        = replayLoop dataHeight blocks fuel 0 (test_node_height + 1) { sink := [], calls := [] })
    ∧ (∀ (dataHeight : Nat → Nat) (blocks : Nat → BlockScript)
          (fuel i current_height : Nat) (st : RunState),
        dataHeight i < current_height →
        replayLoop dataHeight blocks (fuel + 1) i current_height st
          = .finished st current_height)
    ∧ (∀ (dataHeight : Nat → Nat) (blocks : Nat → BlockScript)
          (fuel i current_height : Nat) (st : RunState)
          (rows : List ResultRow) (calls : List RpcCall),
        current_height ≤ dataHeight i →
        processBlock current_height (blocks current_height) = (.advanced rows, calls) →
        replayLoop dataHeight blocks (fuel + 1) i current_height st
          = replayLoop dataHeight blocks fuel (i + 1) (current_height + 1)
              { sink := st.sink ++ rows, calls := st.calls ++ calls }) := by
  refine ⟨fun _ _ _ _ => rfl, ?_, ?_⟩
  · intro dataHeight blocks fuel i current_height st hlt
    simp only [replayLoop]
    rw [if_neg (not_le.mpr hlt)]
  · intro dataHeight blocks fuel i current_height st rows calls hle hpb
    simp [replayLoop, hle, hpb]

/-- Witness for C2 at concrete inputs: the example run's first block step
and its terminating comparison (data height 2, cursor 3). -/
theorem replay_cursor_semantics_witness :
    run 0 exDataHeight exBlocks 5
      = replayLoop exDataHeight exBlocks 5 0 1 { sink := [], calls := [] }
    ∧ replayLoop exDataHeight exBlocks 3 2 3 { sink := [], calls := [] }
      = .finished { sink := [], calls := [] } 3
    ∧ replayLoop exDataHeight exBlocks 2 0 1 { sink := [], calls := [] }
      = replayLoop exDataHeight exBlocks 1 1 2
          { sink := [exRow]
            calls := [RpcCall.testMempoolAccept ["t1"],
                      RpcCall.testMempoolAccept ["t2"],
                      RpcCall.sendRawTransaction "t2" (some Amount.MAX_MONEY) (some Amount.MAX_MONEY),
                      RpcCall.sendRawTransaction "t2" (some Amount.MAX_MONEY) (some Amount.MAX_MONEY),
                      RpcCall.testMempoolAccept ["t3"],
                      RpcCall.submitBlock 1] } :=
  ⟨replay_cursor_semantics.1 0 exDataHeight exBlocks 5,
   replay_cursor_semantics.2.1 exDataHeight exBlocks 2 2 3 { sink := [], calls := [] } (by decide),
   replay_cursor_semantics.2.2 exDataHeight exBlocks 1 0 1 { sink := [], calls := [] }
     [exRow]
     [RpcCall.testMempoolAccept ["t1"],
      RpcCall.testMempoolAccept ["t2"],
      RpcCall.sendRawTransaction "t2" (some Amount.MAX_MONEY) (some Amount.MAX_MONEY),
      RpcCall.sendRawTransaction "t2" (some Amount.MAX_MONEY) (some Amount.MAX_MONEY),
      RpcCall.testMempoolAccept ["t3"],
      RpcCall.submitBlock 1]
     (by decide) (by decide)⟩

/-- C6: a non-coinbase transaction whose acceptance test rejects it with the
already-in-mempool reason is skipped outright: no row is buffered and the
only request issued for it is the acceptance test itself — in particular it
is not submitted with `send_raw_transaction`. -/
theorem already_in_mempool_skipped
    (current_height : Nat) (pool_name : String) (s : TxScript)
    (results : List TestMempoolAcceptResult) (result : TestMempoolAcceptResult)
    (hcb : s.tx.is_coinbase = false)
    (hacc : s.acceptResponse = .ok results)
    (hhd : results.head? = some result)
    (hall : result.allowed = false)
    (hrr : result.reject_reason = some TX_ALREADY_IN_MEMPOOL_REJECTION_REASON) :
    processTx current_height pool_name s
      = (.skippedAlreadyInMempool, [RpcCall.testMempoolAccept [s.tx.txid]]) := by
  simp [processTx, hcb, hacc, hhd, hall, hrr]

/-- Witness for C6: the example already-in-mempool transaction at height 1. -/
theorem already_in_mempool_skipped_witness :
    processTx 1 "ExamplePool" exTx3
      = (.skippedAlreadyInMempool, [RpcCall.testMempoolAccept [exTx3.tx.txid]]) :=
  already_in_mempool_skipped 1 "ExamplePool" exTx3
    [{ allowed := false, reject_reason := some TX_ALREADY_IN_MEMPOOL_REJECTION_REASON }]
    { allowed := false, reject_reason := some TX_ALREADY_IN_MEMPOOL_REJECTION_REASON }
    rfl rfl rfl rfl rfl

/-- C10: a non-coinbase transaction reported as not allowed with no reject
reason makes the program panic (the `.unwrap()` at src/main.rs:100) — it
neither buffers a row nor skips the transaction. -/
theorem missing_reject_reason_panics
    (current_height : Nat) (pool_name : String) (s : TxScript)
    (results : List TestMempoolAcceptResult) (result : TestMempoolAcceptResult)
    (hcb : s.tx.is_coinbase = false)
    (hacc : s.acceptResponse = .ok results)
    (hhd : results.head? = some result)
    (hall : result.allowed = false)
    (hrr : result.reject_reason = none) :
    processTx current_height pool_name s
      = (.panicked "no reject_reason", [RpcCall.testMempoolAccept [s.tx.txid]]) := by
  simp [processTx, hcb, hacc, hhd, hall, hrr]

/-- Witness for C10: a concrete rejected transaction with a missing reject
reason panics. -/
theorem missing_reject_reason_panics_witness :
    processTx 3 "PoolX" exNoReasonTx
      = (.panicked "no reject_reason", [RpcCall.testMempoolAccept [exNoReasonTx.tx.txid]]) :=
  missing_reject_reason_panics 3 "PoolX" exNoReasonTx
    [{ allowed := false, reject_reason := none }]
    { allowed := false, reject_reason := none }
    rfl rfl rfl rfl rfl

theorem sendCeilingsAreMax_send (t0 : String) :
    sendCeilingsAreMax
      (.sendRawTransaction t0 (some Amount.MAX_MONEY) (some Amount.MAX_MONEY)) := by
  intro t f b heq
  injection heq with h1 h2 h3
  exact ⟨h2.symm, h3.symm⟩

theorem sendCeilingsAreMax_accept (txids : List String) :
    sendCeilingsAreMax (.testMempoolAccept txids) := by
  intro t f b heq
  exact RpcCall.noConfusion heq

theorem sendCeilingsAreMax_submit (h : Nat) :
    sendCeilingsAreMax (.submitBlock h) := by
  intro t f b heq
  exact RpcCall.noConfusion heq

theorem sendRawTxLoop_calls_max (txid : String) :
    ∀ (rs : List (Except RpcError String)), ∀ c ∈ (sendRawTxLoop txid rs).2,
      sendCeilingsAreMax c := by
  intro rs
  induction rs with
  | nil => intro c hc; simp [sendRawTxLoop] at hc
  | cons r rest ih =>
    intro c hc
    rcases r with e | v
    · rcases e with s | m | m | m
      · simp [sendRawTxLoop] at hc
        subst hc; exact sendCeilingsAreMax_send txid
      · rw [sendRawTxLoop_transport_cons] at hc
        rcases List.mem_cons.mp hc with rfl | hmem
        · exact sendCeilingsAreMax_send txid
        · exact ih c hmem
      · simp [sendRawTxLoop] at hc
        subst hc; exact sendCeilingsAreMax_send txid
      · simp [sendRawTxLoop] at hc
        subst hc; exact sendCeilingsAreMax_send txid
    · simp [sendRawTxLoop] at hc
      subst hc; exact sendCeilingsAreMax_send txid

theorem submit_block_calls_max (current_height : Nat) :
    ∀ (rs : List (Except RpcError Unit)), ∀ c ∈ (submit_block current_height rs).2,
      sendCeilingsAreMax c := by
  intro rs
  induction rs with
  | nil => intro c hc; simp [submit_block] at hc
  | cons r rest ih =>
    intro c hc
    rcases r with e | v
    · rcases e with s | m | m | m
      · by_cases hs : s = DUPLICATE_BLOCK_ERROR <;>
          simp [submit_block, hs] at hc <;>
          (subst hc; exact sendCeilingsAreMax_submit current_height)
      · rw [submit_block_transport_cons] at hc
        rcases List.mem_cons.mp hc with rfl | hmem
        · exact sendCeilingsAreMax_submit current_height
        · exact ih c hmem
      · simp [submit_block] at hc
        subst hc; exact sendCeilingsAreMax_submit current_height
      · simp [submit_block] at hc
        subst hc; exact sendCeilingsAreMax_submit current_height
    · simp [submit_block] at hc
      subst hc; exact sendCeilingsAreMax_submit current_height

theorem processTx_calls_max (current_height : Nat) (pool_name : String) (s : TxScript) :
    ∀ c ∈ (processTx current_height pool_name s).2, sendCeilingsAreMax c := by
  intro c hc
  simp only [processTx] at hc
  split at hc
  · simp at hc
  · split at hc
    · simp at hc; subst hc; exact sendCeilingsAreMax_accept _
    · split at hc
      · simp at hc; subst hc; exact sendCeilingsAreMax_accept _
      · split at hc
        · split at hc <;>
          · rcases List.mem_cons.mp hc with rfl | hmem
            · exact sendCeilingsAreMax_accept _
            · exact sendRawTxLoop_calls_max _ _ c hmem
        · split at hc
          · simp at hc; subst hc; exact sendCeilingsAreMax_accept _
          · split at hc <;>
            · simp at hc; subst hc; exact sendCeilingsAreMax_accept _

theorem processTxs_calls_max (current_height : Nat) (pool_name : String) :
    ∀ (txs : List TxScript), ∀ c ∈ (processTxs current_height pool_name txs).2,
      sendCeilingsAreMax c := by
  intro txs
  induction txs with
  | nil => intro c hc; simp [processTxs] at hc
  | cons s rest ih =>
    intro c hc
    simp only [processTxs] at hc
    split at hc
    · exact processTx_calls_max current_height pool_name s c hc
    · exact processTx_calls_max current_height pool_name s c hc
    · split at hc <;>
      · rcases List.mem_append.mp hc with hmem | hmem
        · exact processTx_calls_max current_height pool_name s c hmem
        · exact ih c hmem
    · rcases List.mem_append.mp hc with hmem | hmem
      · exact processTx_calls_max current_height pool_name s c hmem
      · exact ih c hmem

theorem processBlock_calls_max (current_height : Nat) (b : BlockScript) :
    ∀ c ∈ (processBlock current_height b).2, sendCeilingsAreMax c := by
  intro c hc
  simp only [processBlock] at hc
  split at hc
  · exact processTxs_calls_max current_height (poolName b) b.txs c hc
  · exact processTxs_calls_max current_height (poolName b) b.txs c hc
  · split at hc <;>
    · rcases List.mem_append.mp hc with hmem | hmem
      · exact processTxs_calls_max current_height (poolName b) b.txs c hmem
      · exact submit_block_calls_max current_height b.submitResponses c hmem

theorem replayLoop_calls_max (dataHeight : Nat → Nat) (blocks : Nat → BlockScript) :
    ∀ (fuel i current_height : Nat) (st : RunState),
      (∀ c ∈ st.calls, sendCeilingsAreMax c) →
      ∀ c ∈ (replayLoop dataHeight blocks fuel i current_height st).state.calls,
        sendCeilingsAreMax c := by
  intro fuel
  induction fuel with
  | zero =>
    intro i current_height st hst c hc
    simpa [replayLoop, LoopResult.state] using hst c (by simpa [replayLoop, LoopResult.state] using hc)
  | succ k ih =>
    intro i current_height st hst c hc
    by_cases hle : current_height ≤ dataHeight i
    · simp only [replayLoop, if_pos hle] at hc
      have hst1 : ∀ c ∈ st.calls ++ (processBlock current_height (blocks current_height)).2,
          sendCeilingsAreMax c := by
        intro c0 hc0
        rcases List.mem_append.mp hc0 with hmem | hmem
        · exact hst c0 hmem
        · exact processBlock_calls_max current_height (blocks current_height) c0 hmem
      split at hc
      · exact ih (i + 1) (current_height + 1) _ hst1 c hc
      · exact hst1 c (by simpa [LoopResult.state] using hc)
      · exact hst1 c (by simpa [LoopResult.state] using hc)
    · simp only [replayLoop, if_neg hle, LoopResult.state] at hc
      exact hst c hc

/-- C3 counterexample: in the example run the engine issues a
mempool-acceptance test, and that request carries no fee ceiling and no
burn ceiling at all — `test_mempool_accept` is called with only the
transaction (src/main.rs:93), so the claim that every acceptance test
carries an explicit fee ceiling fails. -/
theorem accept_test_fee_ceiling_counterexample :
    RpcCall.testMempoolAccept ["t1"] ∈ (run 0 exDataHeight exBlocks 5).state.calls
    ∧ (RpcCall.testMempoolAccept ["t1"]).feeCeiling = none
    ∧ (RpcCall.testMempoolAccept ["t1"]).burnCeiling = none := by
  exact ⟨by decide, rfl, rfl⟩

/-- C3 amended: the mempool-acceptance test carries no fee or burn ceiling
(the call passes only the transaction); the explicit ceilings appear only
on the raw-transaction submission, where every request carries
`Some(Amount::MAX_MONEY)` as both max-fee and max-burn. -/
theorem accept_test_carries_no_fee_ceiling
    (test_node_height : Nat) (dataHeight : Nat → Nat) (blocks : Nat → BlockScript)
    (fuel : Nat) (c : RpcCall)
    (hc : c ∈ (run test_node_height dataHeight blocks fuel).state.calls) :
    (∀ txids, c = .testMempoolAccept txids → c.feeCeiling = none ∧ c.burnCeiling = none)
    ∧ (∀ t f b, c = .sendRawTransaction t f b →
        c.feeCeiling = some Amount.MAX_MONEY ∧ c.burnCeiling = some Amount.MAX_MONEY) := by
  constructor
  · intro txids heq
    subst heq
    exact ⟨rfl, rfl⟩
  · intro t f b heq
    have h := replayLoop_calls_max dataHeight blocks fuel 0 (test_node_height + 1)
      { sink := [], calls := [] } (by intro c0 hc0; simp at hc0) c hc t f b heq
    subst heq
    simp [RpcCall.feeCeiling, RpcCall.burnCeiling, h.1, h.2]

/-- Witness for C3 (amended) at a concrete request of the example run. -/
theorem accept_test_carries_no_fee_ceiling_witness :
    (∀ txids, RpcCall.testMempoolAccept ["t3"] = .testMempoolAccept txids →
      (RpcCall.testMempoolAccept ["t3"]).feeCeiling = none
      ∧ (RpcCall.testMempoolAccept ["t3"]).burnCeiling = none)
    ∧ (∀ t f b, RpcCall.testMempoolAccept ["t3"] = .sendRawTransaction t f b →
        (RpcCall.testMempoolAccept ["t3"]).feeCeiling = some Amount.MAX_MONEY
        ∧ (RpcCall.testMempoolAccept ["t3"]).burnCeiling = some Amount.MAX_MONEY) :=
  accept_test_carries_no_fee_ceiling 0 exDataHeight exBlocks 5
    (RpcCall.testMempoolAccept ["t3"]) (by decide)

/-- C4 counterexample: the example run issues a raw-transaction submission
whose fee ceiling is `Amount::MAX_MONEY` itself — equal to, and hence not
strictly below, the network-imposed maximum amount. -/
theorem send_ceiling_not_below_max_counterexample :
    RpcCall.sendRawTransaction "t2" (some Amount.MAX_MONEY) (some Amount.MAX_MONEY)
      ∈ (run 0 exDataHeight exBlocks 5).state.calls
    ∧ (RpcCall.sendRawTransaction "t2" (some Amount.MAX_MONEY)
        (some Amount.MAX_MONEY)).feeCeiling = some Amount.MAX_MONEY
    ∧ (RpcCall.sendRawTransaction "t2" (some Amount.MAX_MONEY)
        (some Amount.MAX_MONEY)).burnCeiling = some Amount.MAX_MONEY
    ∧ ¬ Amount.MAX_MONEY < Amount.MAX_MONEY := by
  exact ⟨by decide, rfl, rfl, lt_irrefl _⟩

/-- C4 amended: on every call to `send_raw_transaction` the fee and burn
ceilings are `Some(Amount::MAX_MONEY)`: they equal the network-imposed
maximum amount instead of lying strictly below it. -/
theorem send_ceilings_equal_network_max
    (test_node_height : Nat) (dataHeight : Nat → Nat) (blocks : Nat → BlockScript)
    (fuel : Nat) (c : RpcCall)
    (hc : c ∈ (run test_node_height dataHeight blocks fuel).state.calls)
    (t : String) (f b : Option Nat) (heq : c = .sendRawTransaction t f b) :
    f = some Amount.MAX_MONEY ∧ b = some Amount.MAX_MONEY := by
  exact replayLoop_calls_max dataHeight blocks fuel 0 (test_node_height + 1)
    { sink := [], calls := [] } (by intro c0 hc0; simp at hc0) c hc t f b heq

/-- Witness for C4 (amended) at the concrete send request of the example
run. -/
theorem send_ceilings_equal_network_max_witness :
    some Amount.MAX_MONEY = some Amount.MAX_MONEY
    ∧ some Amount.MAX_MONEY = (some Amount.MAX_MONEY : Option Nat) :=
  send_ceilings_equal_network_max 0 exDataHeight exBlocks 5
    (RpcCall.sendRawTransaction "t2" (some Amount.MAX_MONEY) (some Amount.MAX_MONEY))
    (by decide) "t2" (some Amount.MAX_MONEY) (some Amount.MAX_MONEY) rfl

theorem processTx_buffered_inv (current_height : Nat) (pool_name : String)
    (s : TxScript) (row : ResultRow)
    (hb : (processTx current_height pool_name s).1 = .buffered row) :
    s.tx.is_coinbase = false
    ∧ ∃ results result reason,
        s.acceptResponse = .ok results
        ∧ results.head? = some result
        ∧ result.allowed = false
        ∧ result.reject_reason = some reason
        ∧ reason ≠ TX_ALREADY_IN_MEMPOOL_REJECTION_REASON
        ∧ row = mkResultRow current_height pool_name reason s.tx := by
  simp only [processTx] at hb
  split at hb
  · exact absurd hb (by simp)
  · rename_i hcb
    split at hb
    · exact absurd hb (by simp)
    · rename_i results hacc
      split at hb
      · exact absurd hb (by simp)
      · rename_i result hhd
        split at hb
        · rename_i hall
          split at hb <;> exact absurd hb (by simp)
        · rename_i hall
          split at hb
          · exact absurd hb (by simp)
          · rename_i reason hrr
            split at hb
            · exact absurd hb (by simp)
            · rename_i hne
              simp only [Prod.fst] at hb
              refine ⟨by simpa using hcb, results, result, reason, hacc, hhd, ?_, hrr, ?_, ?_⟩
              · simpa using hall
              · exact hne
              · have := TxOutcome.buffered.inj hb
                exact this.symm

theorem processTxs_ok_mem (current_height : Nat) (pool_name : String) :
    ∀ (txs : List TxScript) (rows : List ResultRow),
      (processTxs current_height pool_name txs).1 = .ok rows →
      ∀ row ∈ rows, ∃ s ∈ txs, (processTx current_height pool_name s).1 = .buffered row := by
  intro txs
  induction txs with
  | nil =>
    intro rows hr row hrow
    simp only [processTxs] at hr
    cases hr
    simp at hrow
  | cons s rest ih =>
    intro rows hr row hrow
    simp only [processTxs] at hr
    split at hr
    · exact absurd hr (by simp)
    · exact absurd hr (by simp)
    · rename_i row0 hstep
      split at hr
      · rename_i csv_rows hnext
        simp only [Prod.fst] at hr
        cases hr
        rcases List.mem_cons.mp hrow with rfl | hmem
        · exact ⟨s, List.mem_cons_self s rest, hstep⟩
        · obtain ⟨s1, hs1, hbuf⟩ := ih csv_rows hnext row hmem
          exact ⟨s1, List.mem_cons_of_mem s hs1, hbuf⟩
      · rename_i hnotok
        simp only [Prod.fst] at hr
        exact absurd hr (hnotok rows)
    · rename_i hstep
      simp only [Prod.fst] at hr
      obtain ⟨s1, hs1, hbuf⟩ := ih rows hr row hrow
      exact ⟨s1, List.mem_cons_of_mem s hs1, hbuf⟩

theorem processBlock_advanced_inv (current_height : Nat) (b : BlockScript)
    (rows : List ResultRow) (calls : List RpcCall)
    (hpb : processBlock current_height b = (.advanced rows, calls)) :
    ∀ row ∈ rows,
      (submit_block current_height b.submitResponses).1 = .newBlock
      ∧ ∃ s ∈ b.txs, (processTx current_height (poolName b) s).1 = .buffered row := by
  rcases htx : processTxs current_height (poolName b) b.txs with ⟨txres, txcalls⟩
  rcases hsb : submit_block current_height b.submitResponses with ⟨subres, subcalls⟩
  cases txres with
  | panicked m => simp [processBlock, htx] at hpb
  | hung => simp [processBlock, htx] at hpb
  | ok csv_rows =>
    cases subres with
    | newBlock =>
      simp only [processBlock, htx, hsb] at hpb
      rw [Prod.mk.injEq] at hpb
      obtain ⟨h1, h2⟩ := hpb
      cases BlockResult.advanced.inj h1
      intro row hrow
      refine ⟨rfl, ?_⟩
      exact processTxs_ok_mem current_height (poolName b) b.txs rows (by rw [htx]) row hrow
    | duplicateBlock =>
      simp only [processBlock, htx, hsb] at hpb
      rw [Prod.mk.injEq] at hpb
      obtain ⟨h1, h2⟩ := hpb
      cases BlockResult.advanced.inj h1
      intro row hrow
      simp at hrow
    | panicked m =>
      simp [processBlock, htx, hsb] at hpb
    | hung =>
      simp [processBlock, htx, hsb] at hpb

theorem processBlock_duplicate_no_rows (current_height : Nat) (b : BlockScript)
    (rows : List ResultRow) (calls : List RpcCall)
    (hdup : (submit_block current_height b.submitResponses).1 = .duplicateBlock)
    (hpb : processBlock current_height b = (.advanced rows, calls)) :
    rows = [] := by
  rcases htx : processTxs current_height (poolName b) b.txs with ⟨txres, txcalls⟩
  rcases hsb : submit_block current_height b.submitResponses with ⟨subres, subcalls⟩
  rw [hsb] at hdup
  simp only [Prod.fst] at hdup
  subst hdup
  cases txres with
  | panicked m => simp [processBlock, htx] at hpb
  | hung => simp [processBlock, htx] at hpb
  | ok csv_rows =>
    simp only [processBlock, htx, hsb] at hpb
    rw [Prod.mk.injEq] at hpb
    exact (BlockResult.advanced.inj hpb.1).symm

theorem replayLoop_sink_invariant (dataHeight : Nat → Nat) (blocks : Nat → BlockScript)
    (P : ResultRow → Prop)
    (hblock : ∀ h rows calls, processBlock h (blocks h) = (.advanced rows, calls) →
      ∀ row ∈ rows, P row) :
    ∀ (fuel i current_height : Nat) (st : RunState),
      (∀ row ∈ st.sink, P row) →
      ∀ row ∈ (replayLoop dataHeight blocks fuel i current_height st).state.sink, P row := by
  intro fuel
  induction fuel with
  | zero =>
    intro i current_height st hst row hrow
    exact hst row (by simpa [replayLoop, LoopResult.state] using hrow)
  | succ k ih =>
    intro i current_height st hst row hrow
    by_cases hle : current_height ≤ dataHeight i
    · simp only [replayLoop, if_pos hle] at hrow
      split at hrow
      · rename_i rows hadv
        refine ih (i + 1) (current_height + 1) _ ?_ row hrow
        intro row0 hrow0
        rcases List.mem_append.mp hrow0 with hmem | hmem
        · exact hst row0 hmem
        · refine hblock current_height rows
            (processBlock current_height (blocks current_height)).2 ?_ row0 hmem
          exact Prod.ext hadv rfl
      · exact hst row (by simpa [LoopResult.state] using hrow)
      · exact hst row (by simpa [LoopResult.state] using hrow)
    · simp only [replayLoop, if_neg hle, LoopResult.state] at hrow
      exact hst row hrow

/-- C1: a `ResultRow` reaches the sink only for a transaction that is not
coinbase, whose acceptance test rejected it with a reason other than the
already-in-mempool reason, and whose block's `submit_block` reported the
block as new; and on a duplicate-block outcome the rows buffered for that
block are discarded, so the block contributes zero rows to the sink. -/
theorem result_row_write_gate :
    (∀ (test_node_height : Nat) (dataHeight : Nat → Nat) (blocks : Nat → BlockScript)
        (fuel : Nat),
      ∀ row ∈ (run test_node_height dataHeight blocks fuel).state.sink,
        sinkRowOk blocks row)
    ∧ (∀ (current_height : Nat) (b : BlockScript) (rows : List ResultRow)
          (calls : List RpcCall),
        (submit_block current_height b.submitResponses).1 = .duplicateBlock →
        processBlock current_height b = (.advanced rows, calls) →
        rows = []) := by
  constructor
  · intro tH dH blocks fuel row hrow
    refine replayLoop_sink_invariant dH blocks (sinkRowOk blocks) ?_ fuel 0 (tH + 1)
      { sink := [], calls := [] } (by intro r hr; simp at hr) row hrow
    intro h rows calls hpb row0 hrow0
    obtain ⟨hsub, s, hs, hbuf⟩ :=
      processBlock_advanced_inv h (blocks h) rows calls hpb row0 hrow0
    obtain ⟨hcb, results, result, reason, hacc, hhd, hall, hrr, hne, hrow_eq⟩ :=
      processTx_buffered_inv h (poolName (blocks h)) s row0 hbuf
    refine ⟨h, s, hs, hcb, ⟨results, result, hacc, hhd, hall, ?_⟩, ?_, hsub⟩
    · rw [hrow_eq]
      exact hrr
    · rw [hrow_eq]
      exact hne
  · intro current_height b rows calls hdup hpb
    exact processBlock_duplicate_no_rows current_height b rows calls hdup hpb

/-- Witness for C1: the one row of the example run satisfies the gate, and
the duplicate example block delivers zero rows. -/
theorem result_row_write_gate_witness :
    sinkRowOk exBlocks exRow ∧ ([] : List ResultRow) = [] :=
  ⟨result_row_write_gate.1 0 exDataHeight exBlocks 5 exRow (by decide),
   result_row_write_gate.2 2 exDupBlock []
     [RpcCall.testMempoolAccept ["t4"], RpcCall.submitBlock 2] (by decide) (by decide)⟩

/-- C5: `submit_block` returns true (newBlock) exactly when the node's first
non-transport verdict on the block is success, and false (duplicateBlock)
exactly when that verdict is the duplicate-block rejection; and when the
block is new, the block step delivers exactly the buffered `csv_rows`, in
order, to the sink. -/
theorem submit_block_contract :
    (∀ (current_height : Nat) (rs : List (Except RpcError Unit)),
      ((submit_block current_height rs).1 = .newBlock ↔ firstVerdict rs = some (.ok ()))
      ∧ ((submit_block current_height rs).1 = .duplicateBlock ↔
          firstVerdict rs = some (.error (.returnedError DUPLICATE_BLOCK_ERROR))))
    ∧ (∀ (current_height : Nat) (b : BlockScript) (csv_rows : List ResultRow)
          (calls1 calls2 : List RpcCall),
        processTxs current_height (poolName b) b.txs = (.ok csv_rows, calls1) →
        submit_block current_height b.submitResponses = (.newBlock, calls2) →
        processBlock current_height b = (.advanced csv_rows, calls1 ++ calls2)) := by
  constructor
  · intro current_height rs
    induction rs with
    | nil => simp [submit_block, firstVerdict]
    | cons r rest ih =>
      rcases r with e | v
      · rcases e with s | m | m | m
        · by_cases hs : s = DUPLICATE_BLOCK_ERROR <;>
            simp [submit_block, firstVerdict, hs]
        · rw [submit_block_transport_cons]
          simpa [firstVerdict] using ih
        · simp [submit_block, firstVerdict]
        · simp [submit_block, firstVerdict]
      · simp [submit_block, firstVerdict]
  · intro current_height b csv_rows calls1 calls2 htx hsb
    simp [processBlock, htx, hsb]

/-- Witness for C5: the example block's classification buffers exactly one
row and its acceptance delivers exactly that row. -/
theorem submit_block_contract_witness :
    processBlock 1 exBlock
      = (.advanced [exRow],
         [RpcCall.testMempoolAccept ["t1"],
          RpcCall.testMempoolAccept ["t2"],
          RpcCall.sendRawTransaction "t2" (some Amount.MAX_MONEY) (some Amount.MAX_MONEY),
          RpcCall.sendRawTransaction "t2" (some Amount.MAX_MONEY) (some Amount.MAX_MONEY),
          RpcCall.testMempoolAccept ["t3"]] ++ [RpcCall.submitBlock 1]) :=
  submit_block_contract.2 1 exBlock [exRow]
    [RpcCall.testMempoolAccept ["t1"],
     RpcCall.testMempoolAccept ["t2"],
     RpcCall.sendRawTransaction "t2" (some Amount.MAX_MONEY) (some Amount.MAX_MONEY),
     RpcCall.sendRawTransaction "t2" (some Amount.MAX_MONEY) (some Amount.MAX_MONEY),
     RpcCall.testMempoolAccept ["t3"]]
    [RpcCall.submitBlock 1] (by decide) (by decide)

theorem serializeAll_headerWritten :
    ∀ (rows : List ResultRow) (w : CsvWriter), w.headerWritten = true →
      (w.serializeAll rows).file.records = w.file.records ++ rows.map resultRowRecord
      ∧ (w.serializeAll rows).headerWritten = true := by
  intro rows
  induction rows with
  | nil => intro w hw; simp [CsvWriter.serializeAll, hw]
  | cons r rest ih =>
    intro w hw
    have hser : (w.serialize r)
        = { w with file := { records := w.file.records ++ [resultRowRecord r] } } := by
      simp [CsvWriter.serialize, hw]
    obtain ⟨h1, h2⟩ := ih (w.serialize r) (by rw [hser]; exact hw)
    refine ⟨?_, h2⟩
    rw [CsvWriter.serializeAll, h1, hser]
    simp

/-- C9 counterexample: opening the sink over a file that already holds a
header and a row leaves the writer over an empty file — `Writer::from_path`
goes through `File::create`, which truncates, so previously written rows
are erased, contradicting append-only opening. -/
theorem sink_not_append_only_counterexample :
    (Writer.from_path { records := [resultRowHeader, resultRowRecord exRow] }).file.records = []
    ∧ ({ records := [resultRowHeader, resultRowRecord exRow] } : CsvFile).records ≠ [] :=
  ⟨rfl, by simp⟩

/-- C9 amended: opening the sink truncates whatever the file held (it is
not append-only across runs); within a run the writer only appends; the
header record — field names height, miner, reject_reason, txid, vsize,
inputs, outputs, with no fee — is written exactly once, immediately before
the first row, and not at all when no row is written. -/
theorem sink_truncates_and_writes_header_once :
    (∀ prev : CsvFile,
      Writer.from_path prev = { headerWritten := false, file := { records := [] } })
    ∧ (∀ (w : CsvWriter) (r : ResultRow),
        (w.serialize r).file.records
          = w.file.records ++
            (if w.headerWritten then [resultRowRecord r]
             else [resultRowHeader, resultRowRecord r]))
    ∧ (∀ (prev : CsvFile) (rows : List ResultRow),
        ((Writer.from_path prev).serializeAll rows).file.records
          = if rows.isEmpty then [] else resultRowHeader :: rows.map resultRowRecord)
    ∧ (∀ r : ResultRow, resultRowRecord r
        = [toString r.height, r.miner, r.reject_reason, r.txid,
           toString r.vsize, toString r.inputs, toString r.outputs]) := by
  refine ⟨fun _ => rfl, ?_, ?_, fun _ => rfl⟩
  · intro w r
    by_cases hw : w.headerWritten <;> simp [CsvWriter.serialize, hw]
  · intro prev rows
    cases rows with
    | nil => rfl
    | cons r rest =>
      have hser : ((Writer.from_path prev).serialize r)
          = { headerWritten := true,
              file := { records := [resultRowHeader, resultRowRecord r] } } := by
        simp [Writer.from_path, CsvWriter.serialize]
      rw [CsvWriter.serializeAll, hser]
      obtain ⟨h1, h2⟩ := serializeAll_headerWritten rest
        { headerWritten := true,
          file := { records := [resultRowHeader, resultRowRecord r] } } rfl
      rw [h1]
      simp

end FindNonStandardTx
